import Mathlib

/-!
Verification of the `FortytwoIntraClient` request pipeline
(`src/index.ts`, `src/utils.ts`, `src/types.ts`).

The embedding models the client as explicit state passing over a
`ClientState` (the mutable fields of the class that the pipeline touches:
the cached `access_token`, plus ghost logs counting grant exchanges and
recording the bearer token attached to each resource HTTP call).
External HTTP effects (the token-endpoint POST performed by
`generateToken`, and the resource call performed by the `superagent`
request) are modelled by oracles in a `World`: the n-th grant exchange and
the n-th resource call get their outcome from the oracle at index n.
JavaScript errors thrown by superagent are modelled by `ErrObj`
(presence/absence of the `status` and `response` fields); response bodies
are opaque JSON values, either an array of items or a non-array value.
-/

namespace Intra

/-- HTTP method, from `types.ts` (`export type Method`). -/
inductive Method
  | GET | POST | PATCH | DELETE
deriving DecidableEq, Repr

/-- Per-call token override, from `types.ts` (`userToken`): an object with
an `access_token` string. -/
structure userToken where
  access_token : String
deriving DecidableEq, Repr

/-- A JSON response body: either an array of items (element type `α`) or a
non-array JSON value, kept opaque. -/
inductive Body (α : Type)
  | arr (items : List α)
  | obj (v : α)
deriving DecidableEq, Repr

/-- A resolved superagent response: status, header map (superagent lowers
header names; lookup is by exact key here) and decoded body. -/
structure Response (α : Type) where
  status : Nat
  header : List (String × String)
  body : Body α
deriving DecidableEq, Repr

/-- A thrown JavaScript error as inspected by `isSuperAgentError` and
`simplifySuperagentError`: `status = some s` models the error object
carrying a numeric `status` field, `hasResponse` models the presence of a
`response` field. A pure transport failure has neither. -/
structure ErrObj where
  status : Option Nat
  hasResponse : Bool
deriving DecidableEq, Repr

/-- Request options, from `types.ts` (`reqOptions`). The `query` field
models the superagent `.query(...)` object; numeric values are written as
their decimal-string serializations. -/
structure reqOptions (α : Type) where
  method : Method
  maxRetry : Nat
  attempt : Nat
  body : Option α := none
  token : Option userToken := none
  query : List (String × String) := []
deriving DecidableEq, Repr

/-- Caller-facing options, from `types.ts` (`inputOptions & perPage`):
`method` and `attempt` are internal, `maxRetry` optional, plus the
`perPage` option used only by `getAll`. -/
structure inputOptions (α : Type) where
  body : Option α := none
  token : Option userToken := none
  query : List (String × String) := []
  maxRetry : Option Nat := none
  perPage : Option Nat := none
deriving DecidableEq, Repr

/-- The mutable client state visible to the pipeline: the cached
`access_token` field, plus ghost observables — `grantCount` counts
token-endpoint grant exchanges performed, `resourceLog` records, per
resource HTTP call performed, the bearer token attached to it. -/
structure ClientState where
  access_token : Option String
  grantCount : Nat
  resourceLog : List String
deriving DecidableEq, Repr

/-- Outcome oracles for the external world: the n-th grant exchange
(token-endpoint POST in `generateToken`) and the n-th resource HTTP call
either resolve or reject with a JS error. -/
structure World (α : Type) where
  grant : Nat → Except ErrObj String
  resource : Nat → Except ErrObj (Response α)

/-- Statuses the client retries on, from the constructor:
`this.retryOn = [401, 429, 500]`. -/
def retryOn : List Nat := [401, 429, 500]

/-- The check `this.retryOn.includes(err.status)`: false when the error's
`status` field is absent (undefined is in no list). -/
def statusRetryable (status : Option Nat) : Bool :=
  match status with
  | some s => retryOn.contains s
  | none => false

/-- From `HttpError.ts`: `err && typeof err === "object" && ("status" in
err || "response" in err)`. Field presence is modelled by `isSome` /
`hasResponse`. -/
def isSuperAgentError (e : ErrObj) : Bool :=
  e.status.isSome || e.hasResponse

/-- The normalized error built by `simplifySuperagentError` /
`new HttpError(err)`: `this.status = err.status || null` (a falsy status,
i.e. 0 or absent, becomes null). The `url`/`details` fields carry response
metadata used only for reporting and are not modelled. -/
structure HttpError where
  status : Option Nat
deriving DecidableEq, Repr

/-- From `HttpError.ts` (`simplifySuperagentError`): wrap the error,
keeping a truthy `status` and nulling a falsy one. -/
def simplifySuperagentError (e : ErrObj) : HttpError :=
  { status := match e.status with
      | some s => if s = 0 then none else some s
      | none => none }

/-- An error as it propagates to the caller of `reqHandler`: either the
normalized `HttpError` (`throw simplifySuperagentError(err)`), the raw JS
error rethrown (`throw err`), or the `TypeError` raised when `getAll`
calls `.concat` on a non-array page-1 body. -/
inductive ThrownErr
  | http (e : HttpError)
  | raw (e : ErrObj)
  | typeErr
deriving DecidableEq, Repr

/-- From `generateToken`: POST the grant exchange to the token endpoint
and return the JSON body's `access_token`. The n-th exchange outcome comes
from the oracle; the ghost counter is bumped whether it succeeds or
throws. -/
def generateToken (w : World α) (st : ClientState) :
    Except ErrObj String × ClientState :=
  (w.grant st.grantCount, { st with grantCount := st.grantCount + 1 })

/-- Perform the resource HTTP call with the given bearer token attached as
the `Authorization` header; outcome from the oracle, call recorded in the
ghost log. -/
def doResource (w : World α) (st : ClientState) (bearer : String) :
    Except ErrObj (Response α) × ClientState :=
  (w.resource st.resourceLog.length,
   { st with resourceLog := st.resourceLog ++ [bearer] })

/-- From `FortytwoIntraClient.fetch`: if no per-call `options.token` and no
cached `access_token`, run `generateToken` and cache the result (a thrown
grant error propagates); then issue the request with
`Authorization: Bearer` of the override's `access_token` if present, else
the cached token. -/
def fetch (w : World α) (st : ClientState) (options : reqOptions α) :
    Except ErrObj (Response α) × ClientState :=
  match options.token with
  | some t => doResource w st t.access_token
  | none =>
    match st.access_token with
    | some tok => doResource w st tok
    | none =>
      match generateToken w st with
      | (.error e, st1) => (.error e, st1)
      | (.ok tok, st1) =>
        doResource w { st1 with access_token := some tok } tok

/-- From `FortytwoIntraClient.reqHandler`: await `fetch`; on a thrown
error, if it is a superagent error and `maxRetry > 0 && attempt < maxRetry
&& retryOn.includes(status)`, null the cached token when the status is
401, increment `options.attempt` and recurse; otherwise rethrow (wrapped
by `simplifySuperagentError` for superagent errors, raw otherwise). The
returned `Nat` is the final value of the mutated `options.attempt`. -/
def reqHandler (w : World α) (st : ClientState) (options : reqOptions α) :
    Except ThrownErr (Response α) × ClientState × Nat :=
  match fetch w st options with
  | (.ok res, st1) => (.ok res, st1, options.attempt)
  | (.error err, st1) =>
    if isSuperAgentError err then
      if h : 0 < options.maxRetry ∧ options.attempt < options.maxRetry ∧
          statusRetryable err.status = true then
        let st2 := if err.status = some 401 then
            { st1 with access_token := none }
          else st1
        reqHandler w st2 { options with attempt := options.attempt + 1 }
      else
        (.error (.http (simplifySuperagentError err)), st1, options.attempt)
    else
      (.error (.raw err), st1, options.attempt)
termination_by options.maxRetry - options.attempt
decreasing_by
  omega

/-- Build the `reqOptions` a public verb method passes to `reqHandler`:
`{ method, attempt: 0, maxRetry: this.maxRetry, ...options }` — the spread
can override `maxRetry` (it is optional in `inputOptions`) but not
`method` or `attempt`. -/
def mkOptions (method : Method) (clientMaxRetry : Nat)
    (options : inputOptions α) : reqOptions α :=
  { method := method
    maxRetry := options.maxRetry.getD clientMaxRetry
    attempt := 0
    body := options.body
    token := options.token
    query := options.query }

/-- From `FortytwoIntraClient.get`: run `reqHandler` with `attempt` 0 and
the client's `maxRetry` default. (The resolved value the caller gets is
`res.body`; the whole triple is kept here so state and the final attempt
stay observable.) -/
def get (w : World α) (st : ClientState) (clientMaxRetry : Nat)
    (options : inputOptions α) :
    Except ThrownErr (Response α) × ClientState × Nat :=
  reqHandler w st (mkOptions Method.GET clientMaxRetry options)

/-- First-match association lookup, modelling both JS object property read
(`paginationlinks[rel]`, built below so keys are unique) and
`searchParams.get` / `res.header[...]` (first occurrence wins). -/
def alookup (k : String) : List (String × String) → Option String
  | [] => none
  | (k1, v) :: rest => if k1 = k then some v else alookup k rest

/-- JS `String.prototype.split` on a one-character separator, over the
character list: `"".split(,) = [""]`, separators delimit (possibly empty)
fields. -/
def splitOnChar (sep : Char) : List Char → List (List Char)
  | [] => [[]]
  | c :: cs =>
    if c = sep then [] :: splitOnChar sep cs
    else
      match splitOnChar sep cs with
      | [] => [[c]]
      | h :: t => (c :: h) :: t

/-- ASCII whitespace, for the regex class `\s` and for `parseInt`'s
leading-whitespace skip (the Unicode space characters JS also accepts do
not occur in the inputs modelled here). -/
def isJsWs (c : Char) : Bool :=
  c = ' ' || c = '\t' || c = '\n' || c = '\r' || c = '\x0b' || c = '\x0c'

/-- Greedy nonempty take, for the regex pieces `[^>]+` and `[^"]+`:
consume one-or-more characters satisfying `p`, failing on zero. -/
def takeWhile1 (p : Char → Bool) (cs : List Char) :
    Option (List Char × List Char) :=
  match cs.takeWhile p with
  | [] => none
  | t => some (t, cs.drop t.length)

/-- Match the regex `<([^>]+)>\s*;\s*rel="([^"]+)"` anchored at the start
of `cs`, returning the two capture groups (URL, relation name). The
pattern is backtracking-free: each greedy piece is followed by a character
it cannot consume. -/
def matchLinkAt (cs : List Char) : Option (String × String) :=
  match cs with
  | '<' :: r0 =>
    match takeWhile1 (fun c => c ≠ '>') r0 with
    | some (url, '>' :: r1) =>
      match (r1.dropWhile isJsWs) with
      | ';' :: r2 =>
        match (r2.dropWhile isJsWs) with
        | 'r' :: 'e' :: 'l' :: '=' :: '"' :: r3 =>
          match takeWhile1 (fun c => c ≠ '"') r3 with
          | some (rel, '"' :: _) => some (url.asString, rel.asString)
          | _ => none
        | _ => none
      | _ => none
    | _ => none
  | _ => none

/-- JS `part.match(regex)`: the leftmost match of the link pattern in the
string, scanning successive start positions. -/
def findLinkMatch : List Char → Option (String × String)
  | [] => none
  | c :: cs =>
    match matchLinkAt (c :: cs) with
    | some m => some m
    | none => findLinkMatch cs

/-- JS object property assignment `links[rel] = url`: replace the value if
the key exists, append otherwise (insertion order preserved). -/
def upsert (k v : String) : List (String × String) → List (String × String)
  | [] => [(k, v)]
  | (k1, v1) :: rest =>
    if k1 = k then (k, v) :: rest else (k1, v1) :: upsert k v rest

/-- From `getLastPage`'s reduce: split the header on `","` and fold each
part's regex match into the `rel ↦ url` record. -/
def parseLinks (header : String) : List (String × String) :=
  (splitOnChar ',' header.data).foldl
    (fun links part =>
      match findLinkMatch part with
      | some (url, rel) => upsert rel url links
      | none => links)
    []

/-- JS `parseInt(s, 10)`: skip leading whitespace, optional sign, then
one-or-more decimal digits (trailing garbage ignored); `none` is NaN. -/
def parseIntJS (s : String) : Option Int :=
  let cs := s.data.dropWhile isJsWs
  let sign : Int := if cs.head? = some '-' then -1 else 1
  let cs := match cs with
    | '-' :: r => r
    | '+' :: r => r
    | _ => cs
  match cs.takeWhile Char.isDigit with
  | [] => none
  | ds => some (sign * (ds.foldl (fun n c => n * 10 + (c.toNat - 48)) 0 : Nat))

/-- The query pairs of a URL as `new URL(...).searchParams` exposes them:
the part after the first `?` and before any `#`, split on `&`, empty
segments dropped, each segment split at its first `=` (missing `=` means
empty value), `+` decoded to space. Percent-escapes, which do not occur in
the link URLs modelled, are not decoded. -/
def queryPairs (cs : List Char) : List (String × String) :=
  let beforeFrag := cs.takeWhile (fun c => c ≠ '#')
  let q := match beforeFrag.dropWhile (fun c => c ≠ '?') with
    | [] => []
    | _ :: r => r
  (splitOnChar '&' q).filterMap fun seg =>
    match seg with
    | [] => none
    | _ =>
      let k := seg.takeWhile (fun c => c ≠ '=')
      let v := match seg.dropWhile (fun c => c ≠ '=') with
        | [] => []
        | _ :: r => r
      let dec := fun (l : List Char) =>
        (l.map fun c => if c = '+' then ' ' else c).asString
      some (dec k, dec v)

/-- The WHATWG `new URL(input)` constructor as used by `getLastPage`:
requires an absolute URL — an ASCII-letter-led scheme followed by `:` —
and exposes `searchParams`; `none` models the thrown `TypeError` on an
invalid URL. -/
def parseURL (s : String) : Option (List (String × String)) :=
  match s.data with
  | [] => none
  | c :: rest =>
    if c.isAlpha then
      match rest.dropWhile
          (fun d => d.isAlphanum || d = '+' || d = '-' || d = '.') with
      | ':' :: _ => some (queryPairs (c :: rest))
      | _ => none
    else none

/-- From `utils.ts` (`getLastPage`): throw when the header is falsy; build
the `rel ↦ url` record; throw when the `last` relation is falsy; parse its
URL (the `new URL` `TypeError` also escapes this function) and read the
`page` query parameter; `parseInt` it, throwing when the result is falsy
(0 or undefined) or NaN. Errors are `Except.error` with the thrown
message (`TypeError` for the URL constructor). -/
def getLastPage (header : Option String) : Except String Int :=
  match header with
  | none => .error "No pagination link header"
  | some h =>
    if h = "" then .error "No pagination link header"
    else
      match alookup "last" (parseLinks h) with
      | none => .error "Missing last page link"
      | some lastUrl =>
        if lastUrl = "" then .error "Missing last page link"
        else
          match parseURL lastUrl with
          | none => .error "TypeError"
          | some pairs =>
            match alookup "page" pairs with
            | none => .error "Invalid last page link"
            | some raw =>
              if raw = "" then .error "Invalid last page link"
              else
                match parseIntJS raw with
                | none => .error "Invalid last page link"
                | some n =>
                  if n = 0 then .error "Invalid last page link"
                  else .ok n

/-- The page-number extraction applied to the `last` relation's URL inside
`getLastPage`: `new URL(url).searchParams.get("page")`, `parseInt(_, 10)`,
with a falsy (absent, empty, 0) or NaN result invalid. `none` collects
every way the URL fails to yield a usable page number. -/
def lastPageNum (u : String) : Option Int :=
  match parseURL u with
  | none => none
  | some pairs =>
    match alookup "page" pairs with
    | none => none
    | some raw =>
      if raw = "" then none
      else
        match parseIntJS raw with
        | none => none
        | some n => if n = 0 then none else some n

/-- One request issued to `reqHandler` by `getAll`, as observed from
outside: the `per_page`/`page` pairs appended to `url.searchParams`, the
`query` field of the options object, and the initial `attempt`/`maxRetry`
of its descriptor. -/
structure IssuedReq where
  urlParams : List (String × String)
  query : List (String × String)
  attempt : Nat
  maxRetry : Nat
deriving DecidableEq, Repr

/-- The effective page size in `getAll`: `options.perPage || 100` (the JS
`||` turns a falsy 0, like an absent option, into the default 100). -/
def effPerPage (options : inputOptions α) : Nat :=
  match options.perPage with
  | none => 100
  | some p => if p = 0 then 100 else p

/-- The options object `getAll` builds for the page-1 request: `{ method:
"GET", attempt: 0, maxRetry, ...options, query: { page: 1, per_page: 100 }
}` — the query literal comes after the spread, so it overrides any caller
query, and its `per_page` is the hard-coded number 100, not `perPage`. -/
def initPageOptions (clientMaxRetry : Nat) (options : inputOptions α) :
    reqOptions α :=
  { mkOptions Method.GET clientMaxRetry options with
    query := [("page", "1"), ("per_page", "100")] }

/-- The observable record of `getAll`'s page-1 request: no URL-appended
parameters, the hard-coded query object, fresh attempt counter. -/
def initPageReq (clientMaxRetry : Nat) (options : inputOptions α) :
    IssuedReq :=
  { urlParams := []
    query := (initPageOptions clientMaxRetry options).query
    attempt := 0
    maxRetry := (initPageOptions clientMaxRetry options).maxRetry }

/-- The fan-out loop of `getAll`: for each page number in `pages`, issue an
independent `reqHandler` call (`attempt: 0`) whose URL carries
`per_page=perPage&page=i`. `Promise.all` gives no completion-order
guarantee; outcomes are collected here in page order (a fair
linearization — each page request consumes its own oracle outcomes), and
all requests are issued regardless of individual failures. -/
def fanOut (w : World α) (st : ClientState) (clientMaxRetry perPage : Nat)
    (options : inputOptions α) :
    List Nat →
      List (Except ThrownErr (Response α)) × ClientState × List IssuedReq
  | [] => ([], st, [])
  | i :: rest =>
    let (r, st1, _) := reqHandler w st (mkOptions Method.GET clientMaxRetry options)
    let (rs, st2, reqs) := fanOut w st1 clientMaxRetry perPage options rest
    (r :: rs, st2,
     { urlParams := [("per_page", toString perPage), ("page", toString i)]
       query := options.query
       attempt := 0
       maxRetry := options.maxRetry.getD clientMaxRetry } :: reqs)

/-- How `Array.prototype.concat` treats one argument: an array argument is
spread into its elements, a non-array argument is appended as a single
element. -/
def bodyElems : Body α → List α
  | .arr ys => ys
  | .obj v => [v]

/-- JS `Array.prototype.concat` as used in
`initialRes.body.concat(...values.map(v => v.body))`: a `TypeError` when
the receiver is not an array (a non-array has no `concat` method); the
arguments are combined by `bodyElems`. -/
def concatBodies (init : Body α) (rest : List (Body α)) :
    Except ThrownErr (Body α) :=
  match init with
  | .obj _ => .error .typeErr
  | .arr xs => .ok (.arr (xs ++ rest.flatMap bodyElems))

/-- The page numbers `2..lastPage` of the `for (let i = 2; i <= lastPage;
i++)` loop (empty when `lastPage < 2`, also for a negative `lastPage`). -/
def pageRange (lastPage : Int) : List Nat :=
  (List.range (lastPage.toNat - 1)).map (fun k => k + 2)

/-- `Promise.all` over collected outcomes: reject with a failed page's
error if any, else resolve with all response bodies in list order. (Which
failure wins when several pages fail depends on completion order; the
first in page order is taken, and no claim inspects the choice.) -/
def promiseAll (rs : List (Except ThrownErr (Response α))) :
    Except ThrownErr (List (Body α)) :=
  match rs with
  | [] => .ok []
  | .error e :: _ => .error e
  | .ok r :: rest =>
    match promiseAll rest with
    | .error e => .error e
    | .ok bs => .ok (r.body :: bs)

/-- From `FortytwoIntraClient.getAll`: issue page 1 with the query object
`{ page: 1, per_page: 100 }` (written after the `...options` spread, so it
overrides any caller query; note the hard-coded `100`). If `getLastPage`
on the response's `link` header throws, resolve with page 1's body
unchanged. Otherwise fan out pages `2..lastPage`, each with
`per_page=<perPage>&page=<i>` in its URL, await all and concatenate the
bodies onto page 1's. Returns the outcome, the final client state, and
the list of issued requests (ghost observable). -/
def getAll (w : World α) (st : ClientState) (clientMaxRetry : Nat)
    (options : inputOptions α) :
    Except ThrownErr (Body α) × ClientState × List IssuedReq :=
  match reqHandler w st (initPageOptions clientMaxRetry options) with
  | (.error e, st1, _) => (.error e, st1, [initPageReq clientMaxRetry options])
  | (.ok initialRes, st1, _) =>
    match getLastPage (alookup "link" initialRes.header) with
    | .error _ =>
      (.ok initialRes.body, st1, [initPageReq clientMaxRetry options])
    | .ok lastPage =>
      let (rs, st2, reqs) :=
        fanOut w st1 clientMaxRetry (effPerPage options) options
          (pageRange lastPage)
      match promiseAll rs with
      | .error e =>
        (.error e, st2, initPageReq clientMaxRetry options :: reqs)
      | .ok bodies =>
        match concatBodies initialRes.body bodies with
        | .error e =>
          (.error e, st2, initPageReq clientMaxRetry options :: reqs)
        | .ok b => (.ok b, st2, initPageReq clientMaxRetry options :: reqs)

/-!
Concrete client states, errors and worlds (at `α := Nat`) used to
instantiate the theorems below on explicit runs.
-/

def st0 : ClientState :=
  { access_token := none, grantCount := 0, resourceLog := [] }

def stTok : ClientState :=
  { access_token := some "cached", grantCount := 0, resourceLog := [] }

def ovTok : userToken := { access_token := "override" }

def errOf (s : Nat) : ErrObj := { status := some s, hasResponse := true }

def errTransport : ErrObj := { status := none, hasResponse := false }

def okResp : Response Nat :=
  { status := 200, header := [], body := .arr [1, 2] }

def w500 : World Nat :=
  { grant := fun _ => .ok "g", resource := fun _ => .error (errOf 500) }

def w429 : World Nat :=
  { grant := fun _ => .ok "g", resource := fun _ => .error (errOf 429) }

def w401 : World Nat :=
  { grant := fun _ => .ok "g", resource := fun _ => .error (errOf 401) }

def wGrant500 : World Nat :=
  { grant := fun _ => .error (errOf 500), resource := fun _ => .ok okResp }

def wGrant400 : World Nat :=
  { grant := fun _ => .error (errOf 400), resource := fun _ => .ok okResp }

def wTransport : World Nat :=
  { grant := fun _ => .ok "g", resource := fun _ => .error errTransport }

def w401Once : World Nat :=
  { grant := fun n => .ok ("t" ++ toString n)
    resource := fun n => if n = 0 then .error (errOf 401) else .ok okResp }

def hdr4 : String :=
  "<https://api.intra.42.fr/v2/campus?page=4&per_page=100>; rel=\"last\""

def hdrNeg : String :=
  "<https://api.intra.42.fr/v2/x?page=-3>; rel=\"last\""

def wPages : World Nat :=
  { grant := fun _ => .ok "g"
    resource := fun n =>
      if n = 0 then
        .ok { status := 200, header := [("link", hdr4)], body := .arr [1, 2] }
      else .ok { status := 200, header := [], body := .arr [10 * n] } }

def wNeg : World Nat :=
  { grant := fun _ => .ok "g"
    resource := fun n =>
      if n = 0 then
        .ok { status := 200, header := [("link", hdrNeg)], body := .arr [1] }
      else .ok { status := 200, header := [], body := .arr [10 * n] } }

def wNoLink : World Nat :=
  { grant := fun _ => .ok "g"
    resource := fun _ =>
      .ok { status := 200, header := [], body := .obj 7 } }

section Lemmas

variable {α : Type}

theorem fetch_grantCount_le (w : World α) (st : ClientState)
    (o : reqOptions α) :
    st.grantCount ≤ (fetch w st o).2.grantCount := by
  unfold fetch generateToken doResource
  rcases o.token with _ | t <;> rcases h : st.access_token with _ | tok <;>
    rcases w.grant st.grantCount with e | s <;> simp

theorem fetch_resourceLog_len_le (w : World α) (st : ClientState)
    (o : reqOptions α) :
    (fetch w st o).2.resourceLog.length ≤ st.resourceLog.length + 1 := by
  unfold fetch generateToken doResource
  rcases o.token with _ | t <;> rcases h : st.access_token with _ | tok <;>
    rcases w.grant st.grantCount with e | s <;> simp

theorem ite_clear_grantCount (c : Prop) [Decidable c] (st : ClientState) :
    (if c then { st with access_token := none } else st).grantCount =
      st.grantCount := by
  split <;> rfl

theorem ite_clear_resourceLog (c : Prop) [Decidable c] (st : ClientState) :
    (if c then { st with access_token := none } else st).resourceLog =
      st.resourceLog := by
  split <;> rfl

theorem reqHandler_attempt_le (w : World α) (st : ClientState)
    (o : reqOptions α) :
    o.attempt ≤ (reqHandler w st o).2.2 := by
  induction st, o using reqHandler.induct w with
  | case1 st o res st1 hf => rw [reqHandler, hf]
  | case2 st o err st1 hf hsa h st2 ih =>
    rw [reqHandler, hf]
    simp only [hsa, if_true, dif_pos h]
    exact le_trans (Nat.le_succ _) ih
  | case3 st o err st1 hf hsa h =>
    rw [reqHandler, hf]
    simp only [hsa, if_true, dif_neg h]
    exact le_rfl
  | case4 st o err st1 hf hsa =>
    rw [reqHandler, hf]
    simp [hsa]

theorem reqHandler_attempt_le_max (w : World α) (st : ClientState)
    (o : reqOptions α) :
    (reqHandler w st o).2.2 ≤ max o.attempt o.maxRetry := by
  induction st, o using reqHandler.induct w with
  | case1 st o res st1 hf =>
    rw [reqHandler, hf]
    exact Nat.le_max_left _ _
  | case2 st o err st1 hf hsa h st2 ih =>
    rw [reqHandler, hf]
    simp only [hsa, if_true, dif_pos h]
    refine le_trans ih ?_
    dsimp only
    have ha := h.2.1
    simp only [Nat.max_def]
    split <;> split <;> omega
  | case3 st o err st1 hf hsa h =>
    rw [reqHandler, hf]
    simp only [hsa, if_true, dif_neg h]
    exact Nat.le_max_left _ _
  | case4 st o err st1 hf hsa =>
    rw [reqHandler, hf]
    simp only [hsa, if_false, Bool.false_eq_true]
    exact Nat.le_max_left _ _

theorem reqHandler_resourceLog_len_le (w : World α) (st : ClientState)
    (o : reqOptions α) :
    (reqHandler w st o).2.1.resourceLog.length ≤
      st.resourceLog.length + (o.maxRetry - o.attempt) + 1 := by
  induction st, o using reqHandler.induct w with
  | case1 st o res st1 hf =>
    rw [reqHandler, hf]
    have := fetch_resourceLog_len_le w st o
    rw [hf] at this
    simpa using le_trans this (by omega)
  | case2 st o err st1 hf hsa h st2 ih =>
    rw [reqHandler, hf]
    simp only [hsa, if_true, dif_pos h]
    have h1 := fetch_resourceLog_len_le w st o
    rw [hf] at h1
    simp only at h1
    have h2 : st2.resourceLog = st1.resourceLog := ite_clear_resourceLog _ _
    rw [h2] at ih
    dsimp only at ih
    have ha := h.2.1
    refine le_trans ih ?_
    omega
  | case3 st o err st1 hf hsa h =>
    rw [reqHandler, hf]
    simp only [hsa, if_true, dif_neg h]
    have h1 := fetch_resourceLog_len_le w st o
    rw [hf] at h1
    simpa using le_trans h1 (by omega)
  | case4 st o err st1 hf hsa =>
    rw [reqHandler, hf]
    simp only [hsa, if_false, Bool.false_eq_true]
    have h1 := fetch_resourceLog_len_le w st o
    rw [hf] at h1
    simpa using le_trans h1 (by omega)

theorem reqHandler_grantCount_le (w : World α) (st : ClientState)
    (o : reqOptions α) :
    st.grantCount ≤ (reqHandler w st o).2.1.grantCount := by
  induction st, o using reqHandler.induct w with
  | case1 st o res st1 hf =>
    rw [reqHandler, hf]
    have := fetch_grantCount_le w st o
    rwa [hf] at this
  | case2 st o err st1 hf hsa h st2 ih =>
    rw [reqHandler, hf]
    simp only [hsa, if_true, dif_pos h]
    have h1 := fetch_grantCount_le w st o
    rw [hf] at h1
    have h2 : st2.grantCount = st1.grantCount := ite_clear_grantCount _ _
    rw [h2] at ih
    exact le_trans h1 ih
  | case3 st o err st1 hf hsa h =>
    rw [reqHandler, hf]
    simp only [hsa, if_true, dif_neg h]
    have h1 := fetch_grantCount_le w st o
    rwa [hf] at h1
  | case4 st o err st1 hf hsa =>
    rw [reqHandler, hf]
    simp only [hsa, if_false, Bool.false_eq_true]
    have h1 := fetch_grantCount_le w st o
    rwa [hf] at h1

theorem statusRetryable_of_mem (s : Nat) (hs : s ∈ retryOn) :
    statusRetryable (some s) = true := by
  simpa [statusRetryable] using hs

theorem reqHandler_always_err (w : World α) (e : ErrObj) (s : Nat)
    (tok : userToken) (he : e.status = some s) (hs : s ∈ retryOn)
    (hs0 : s ≠ 0) (hw : ∀ n, w.resource n = .error e) (st : ClientState)
    (o : reqOptions α) (ht : o.token = some tok) :
    reqHandler w st o =
      (.error (.http { status := some s }),
       { access_token :=
           if s = 401 ∧ o.attempt < o.maxRetry then none
           else st.access_token
         grantCount := st.grantCount
         resourceLog := st.resourceLog ++
           List.replicate (o.maxRetry - o.attempt + 1) tok.access_token },
       max o.attempt o.maxRetry) := by
  induction st, o using reqHandler.induct w with
  | case1 st o res st1 hf =>
    simp only [fetch, ht, doResource, hw] at hf
    simp at hf
  | case2 st o err st1 hf hsa h st2 ih =>
    have hF := hf
    simp only [fetch, ht, doResource, hw] at hf
    have he1 : err = e := by
      have := congrArg Prod.fst hf
      simpa using this.symm
    subst he1
    have hst1 : st1 =
        { st with resourceLog := st.resourceLog ++ [tok.access_token] } := by
      have := congrArg Prod.snd hf
      simpa using this.symm
    have ha : o.attempt < o.maxRetry := h.2.1
    have hacc : st2.access_token =
        if s = 401 then none else st.access_token := by
      show (if err.status = some 401 then
          { st1 with access_token := none } else st1).access_token = _
      rw [he, hst1]
      by_cases h401 : s = 401 <;> simp [h401]
    have hgc : st2.grantCount = st.grantCount := by
      show (if err.status = some 401 then
          { st1 with access_token := none } else st1).grantCount = _
      rw [ite_clear_grantCount, hst1]
    have hlog : st2.resourceLog = st.resourceLog ++ [tok.access_token] := by
      show (if err.status = some 401 then
          { st1 with access_token := none } else st1).resourceLog = _
      rw [ite_clear_resourceLog, hst1]
    have ihh := ih (by simpa using ht)
    rw [reqHandler, hF]
    simp only [hsa, if_true, dif_pos h]
    refine Eq.trans ihh ?_
    have hk : o.maxRetry - (o.attempt + 1) + 1 + 1 =
        o.maxRetry - o.attempt + 1 := by omega
    have hmax : max (o.attempt + 1) o.maxRetry = max o.attempt o.maxRetry := by
      omega
    refine Prod.ext rfl (Prod.ext ?_ ?_)
    · dsimp only
      rw [ClientState.mk.injEq]
      refine ⟨?_, hgc, ?_⟩
      · rw [hacc]
        by_cases h401 : s = 401 <;> simp [h401, ha]
      · rw [hlog, List.append_assoc, ← hk, List.replicate_succ]
        simp [List.replicate_succ]
    · dsimp only
      exact hmax
  | case3 st o err st1 hf hsa h =>
    have hF := hf
    simp only [fetch, ht, doResource, hw] at hf
    have he1 : err = e := by
      have := congrArg Prod.fst hf
      simpa using this.symm
    subst he1
    have hst1 : st1 =
        { st with resourceLog := st.resourceLog ++ [tok.access_token] } := by
      have := congrArg Prod.snd hf
      simpa using this.symm
    have hna : ¬ o.attempt < o.maxRetry := by
      intro hlt
      exact h ⟨by omega, hlt, by rw [he]; exact statusRetryable_of_mem s hs⟩
    rw [reqHandler, hF]
    simp only [hsa, if_true, dif_neg h]
    have hz : o.maxRetry - o.attempt = 0 := by omega
    rw [hst1]
    refine Prod.ext ?_ (Prod.ext ?_ ?_)
    · dsimp only
      simp [simplifySuperagentError, he, hs0]
    · dsimp only
      rw [ClientState.mk.injEq]
      refine ⟨by simp [hna], rfl, ?_⟩
      rw [hz]
      simp
    · dsimp only
      omega
  | case4 st o err st1 hf hsa =>
    simp only [fetch, ht, doResource, hw] at hf
    have he1 : err = e := by
      have := congrArg Prod.fst hf
      simpa using this.symm
    subst he1
    simp [isSuperAgentError, he] at hsa

theorem reqHandler_grant_always_err (w : World α) (e : ErrObj) (s : Nat)
    (he : e.status = some s) (hs : s ∈ retryOn) (hs0 : s ≠ 0)
    (hw : ∀ n, w.grant n = .error e) (st : ClientState) (o : reqOptions α)
    (ht : o.token = none) (hc : st.access_token = none) :
    reqHandler w st o =
      (.error (.http { status := some s }),
       { access_token := none
         grantCount := st.grantCount + (o.maxRetry - o.attempt) + 1
         resourceLog := st.resourceLog },
       max o.attempt o.maxRetry) := by
  induction st, o using reqHandler.induct w with
  | case1 st o res st1 hf =>
    simp only [fetch, ht, hc, generateToken, hw] at hf
    simp at hf
  | case2 st o err st1 hf hsa h st2 ih =>
    have hF := hf
    simp only [fetch, ht, hc, generateToken, hw] at hf
    have he1 : err = e := by
      have := congrArg Prod.fst hf
      simpa using this.symm
    subst he1
    have hst1 : st1 =
        { access_token := none
          grantCount := st.grantCount + 1
          resourceLog := st.resourceLog } := by
      have := congrArg Prod.snd hf
      simpa using this.symm
    have ha : o.attempt < o.maxRetry := h.2.1
    have hacc2 : st2.access_token = none := by
      show (if err.status = some 401 then
          { st1 with access_token := none } else st1).access_token = none
      split
      · rfl
      · rw [hst1]
    have hgc : st2.grantCount = st.grantCount + 1 := by
      show (if err.status = some 401 then
          { st1 with access_token := none } else st1).grantCount = _
      rw [ite_clear_grantCount, hst1]
    have hlog : st2.resourceLog = st.resourceLog := by
      show (if err.status = some 401 then
          { st1 with access_token := none } else st1).resourceLog = _
      rw [ite_clear_resourceLog, hst1]
    have ihh := ih (by simpa using ht) hacc2
    rw [reqHandler, hF]
    simp only [hsa, if_true, dif_pos h]
    refine Eq.trans ihh ?_
    refine Prod.ext rfl (Prod.ext ?_ ?_)
    · dsimp only
      rw [ClientState.mk.injEq]
      refine ⟨rfl, ?_, hlog⟩
      rw [hgc]
      omega
    · dsimp only
      omega
  | case3 st o err st1 hf hsa h =>
    have hF := hf
    simp only [fetch, ht, hc, generateToken, hw] at hf
    have he1 : err = e := by
      have := congrArg Prod.fst hf
      simpa using this.symm
    subst he1
    have hst1 : st1 =
        { access_token := none
          grantCount := st.grantCount + 1
          resourceLog := st.resourceLog } := by
      have := congrArg Prod.snd hf
      simpa using this.symm
    have hna : ¬ o.attempt < o.maxRetry := by
      intro hlt
      exact h ⟨by omega, hlt, by rw [he]; exact statusRetryable_of_mem s hs⟩
    rw [reqHandler, hF]
    simp only [hsa, if_true, dif_neg h]
    rw [hst1]
    refine Prod.ext ?_ (Prod.ext ?_ ?_)
    · dsimp only
      simp [simplifySuperagentError, he, hs0]
    · dsimp only
      rw [ClientState.mk.injEq]
      exact ⟨rfl, by omega, rfl⟩
    · dsimp only
      omega
  | case4 st o err st1 hf hsa =>
    simp only [fetch, ht, hc, generateToken, hw] at hf
    have he1 : err = e := by
      have := congrArg Prod.fst hf
      simpa using this.symm
    subst he1
    simp [isSuperAgentError, he] at hsa

theorem fanOut_reqs (w : World α) (cmr pp : Nat) (o : inputOptions α) :
    ∀ (pages : List Nat) (st : ClientState),
      (fanOut w st cmr pp o pages).2.2 = pages.map (fun i =>
        { urlParams := [("per_page", toString pp), ("page", toString i)]
          query := o.query
          attempt := 0
          maxRetry := o.maxRetry.getD cmr }) := by
  intro pages
  induction pages with
  | nil => intro st; rfl
  | cons i rest ih =>
    intro st
    simp only [fanOut, List.map_cons]
    rw [ih]

theorem fanOut_results_length (w : World α) (cmr pp : Nat)
    (o : inputOptions α) :
    ∀ (pages : List Nat) (st : ClientState),
      (fanOut w st cmr pp o pages).1.length = pages.length := by
  intro pages
  induction pages with
  | nil => intro st; rfl
  | cons i rest ih =>
    intro st
    simp only [fanOut, List.length_cons]
    rw [ih]

theorem promiseAll_error_of_mem (rs : List (Except ThrownErr (Response α)))
    (e : ThrownErr) (h : Except.error e ∈ rs) :
    ∃ e2, promiseAll rs = .error e2 := by
  induction rs with
  | nil => cases h
  | cons r rest ih =>
    match r with
    | .error e1 => exact ⟨e1, rfl⟩
    | .ok r1 =>
      have h2 : Except.error e ∈ rest := by
        rcases List.mem_cons.mp h with h3 | h3
        · cases h3
        · exact h3
      obtain ⟨e2, he2⟩ := ih h2
      refine ⟨e2, ?_⟩
      rw [promiseAll, he2]

theorem concatBodies_arr (xs : List α) (itemss : List (List α)) :
    concatBodies (.arr xs) (itemss.map Body.arr) =
      .ok (.arr (xs ++ itemss.flatten)) := by
  have haux : ∀ l : List (List α),
      (l.map Body.arr).flatMap bodyElems = l.flatten := by
    intro l
    induction l with
    | nil => rfl
    | cons ys rest ih =>
      simp only [List.map_cons, List.flatMap_cons, List.flatten_cons,
        bodyElems]
      rw [ih]
  simp only [concatBodies, haux]

theorem pageRange_length (n : Int) : (pageRange n).length = n.toNat - 1 := by
  simp [pageRange]

theorem getLastPage_isError (ho : Option String)
    (hc : ho = none ∨
      (∀ h, ho = some h → alookup "last" (parseLinks h) = none) ∨
      (∀ h u, ho = some h → alookup "last" (parseLinks h) = some u →
        lastPageNum u = none)) :
    ∃ m, getLastPage ho = .error m := by
  match ho with
  | none => exact ⟨_, rfl⟩
  | some h =>
    simp only [getLastPage]
    by_cases hemp : h = ""
    · rw [if_pos hemp]
      exact ⟨_, rfl⟩
    · rw [if_neg hemp]
      match hlast : alookup "last" (parseLinks h) with
      | none => exact ⟨_, rfl⟩
      | some u =>
        dsimp only
        rcases hc with hc | hc | hc
        · cases hc
        · rw [hc h rfl] at hlast
          cases hlast
        · have hu := hc h u rfl hlast
          by_cases hun : u = ""
          · rw [if_pos hun]
            exact ⟨_, rfl⟩
          · rw [if_neg hun]
            simp only [lastPageNum] at hu
            match hpu : parseURL u with
            | none =>
              exact ⟨_, rfl⟩
            | some pairs =>
              rw [hpu] at hu
              dsimp only at hu
              dsimp only
              match hpg : alookup "page" pairs with
              | none =>
                exact ⟨_, rfl⟩
              | some raw =>
                rw [hpg] at hu
                dsimp only at hu
                dsimp only
                by_cases hraw : raw = ""
                · rw [if_pos hraw]
                  exact ⟨_, rfl⟩
                · rw [if_neg hraw]
                  rw [if_neg hraw] at hu
                  match hpi : parseIntJS raw with
                  | none =>
                    exact ⟨_, rfl⟩
                  | some n =>
                    rw [hpi] at hu
                    dsimp only at hu
                    dsimp only
                    by_cases hn : n = 0
                    · rw [if_pos hn]
                      exact ⟨_, rfl⟩
                    · rw [if_neg hn] at hu
                      cases hu

theorem fetch_grant_performed (w : World α) (st : ClientState)
    (o : reqOptions α) (ht : o.token = none) (hc : st.access_token = none) :
    (fetch w st o).2.grantCount = st.grantCount + 1 := by
  simp only [fetch, ht, hc, generateToken]
  rcases w.grant st.grantCount with e | s <;> simp [doResource]

theorem reqHandler_grant_first (w : World α) (st : ClientState)
    (o : reqOptions α) (ht : o.token = none) (hc : st.access_token = none) :
    st.grantCount + 1 ≤ (reqHandler w st o).2.1.grantCount := by
  rcases hf : fetch w st o with ⟨r, st1⟩
  have h1 : st1.grantCount = st.grantCount + 1 := by
    have h2 := fetch_grant_performed w st o ht hc
    rw [hf] at h2
    exact h2
  rcases r with err | res <;> rw [reqHandler, hf] <;> dsimp only
  · split
    · split
      · refine le_trans ?_ (reqHandler_grantCount_le w _ _)
        rw [ite_clear_grantCount]
        omega
      · dsimp only
        omega
    · dsimp only
      omega
  · omega

end Lemmas

section Claims

variable {α : Type}

/-- C2: for every request descriptor created by a public verb the attempt
counter starts at 0 (`mkOptions` sets `attempt := 0`, which the caller
cannot override) and is non-decreasing across retries; the retry
recursion terminates on every input (the embedding is a total function);
after execution the attempt counter lies in `[0, maxRetry]` and at most
`maxRetry + 1` resource HTTP calls were made. -/
theorem C2_attempt_bounds (w : World α) (st : ClientState) (mr : Nat)
    (o : inputOptions α) :
    (∀ (st1 : ClientState) (o1 : reqOptions α),
      o1.attempt ≤ (reqHandler w st1 o1).2.2) ∧
    (get w st mr o).2.2 ≤ o.maxRetry.getD mr ∧
    (get w st mr o).2.1.resourceLog.length ≤
      st.resourceLog.length + (o.maxRetry.getD mr + 1) := by
  refine ⟨fun st1 o1 => reqHandler_attempt_le w st1 o1, ?_, ?_⟩
  · have h := reqHandler_attempt_le_max w st (mkOptions Method.GET mr o)
    simpa [get, mkOptions] using h
  · have h := reqHandler_resourceLog_len_le w st (mkOptions Method.GET mr o)
    simpa [get, mkOptions, Nat.add_assoc] using h

/-- C8: an error with no HTTP status (pure transport failure) is surfaced
to the caller immediately: the attempt counter is not incremented, no
retry happens (the state after the single `fetch` is final), and the
error is rethrown — raw if it has no `response` field either, wrapped
with a null status by `simplifySuperagentError` otherwise. -/
theorem C8_transport_no_retry (w : World α) (st st1 : ClientState)
    (o : reqOptions α) (e : ErrObj)
    (hf : fetch w st o = (.error e, st1)) (hs : e.status = none) :
    reqHandler w st o =
      ((if e.hasResponse then .error (.http { status := none })
        else .error (.raw e)), st1, o.attempt) := by
  rw [reqHandler, hf]
  by_cases hr : e.hasResponse
  · simp [isSuperAgentError, hs, hr, statusRetryable,
      simplifySuperagentError]
  · simp [isSuperAgentError, hs, hr]

/-- C8 witness: a transport failure (no status, no response) on a request
with a token override fails immediately with the raw error, attempt 0. -/
theorem C8_transport_no_retry_witness :
    reqHandler wTransport stTok
        (mkOptions Method.GET 5 { token := some ovTok }) =
      ((if errTransport.hasResponse then
          .error (.http { status := none })
        else .error (.raw errTransport)),
       { stTok with resourceLog := stTok.resourceLog ++ ["override"] }, 0) :=
  C8_transport_no_retry wTransport stTok _ _ errTransport
    (by simp [fetch, mkOptions, doResource, wTransport, ovTok]) rfl

/-- C9: the authenticate step of `fetch` with a per-call token override
returns the override unchanged: the request goes out with the override's
`access_token` as bearer, no grant exchange happens, the cached token is
not written (the state changes only by the resource-call log), and the
cached token is not read (the outcome is the same whatever the cache
holds). -/
theorem C9_override_bypasses_cache (w : World α) (st : ClientState)
    (o : reqOptions α) (t : userToken) (ht : o.token = some t) :
    fetch w st o =
      (w.resource st.resourceLog.length,
       { st with resourceLog := st.resourceLog ++ [t.access_token] }) ∧
    (∀ x, (fetch w { st with access_token := x } o).1 = (fetch w st o).1) := by
  constructor
  · simp [fetch, ht, doResource]
  · intro x
    simp [fetch, ht, doResource]

/-- C9 witness: with the override present and a different token cached,
the request is sent with the override's token, the cache is untouched
and unread. -/
theorem C9_override_bypasses_cache_witness :
    (fetch w401 stTok
        (mkOptions Method.GET 5 { token := some ovTok }) =
      (w401.resource stTok.resourceLog.length,
       { stTok with resourceLog := stTok.resourceLog ++ ["override"] })) ∧
    (∀ x, (fetch w401 { stTok with access_token := x }
        (mkOptions Method.GET 5 { token := some ovTok })).1 =
      (fetch w401 stTok (mkOptions Method.GET 5 { token := some ovTok })).1) :=
  C9_override_bypasses_cache w401 stTok _ ovTok rfl

/-- C1 counterexample: the claim says a 500 response fails terminally
without a retry, but `retryOn = [401, 429, 500]` makes the code retry it —
with `maxRetry = 5` and every resource call answering 500, the run ends
with attempt counter 5 and six resource HTTP calls instead of attempt 0
and one call. -/
theorem C1_counterexample :
    (reqHandler w500 stTok
        (mkOptions Method.GET 5 { token := some ovTok })).2.2 = 5 ∧
    (reqHandler w500 stTok
        (mkOptions Method.GET 5
          { token := some ovTok })).2.1.resourceLog.length = 6 := by
  have h := reqHandler_always_err w500 (errOf 500) 500 ovTok rfl (by decide)
    (by decide) (fun n => rfl) stTok
    (mkOptions Method.GET 5 { token := some ovTok }) rfl
  rw [h]
  simp [stTok, mkOptions]

/-- C1 (amended): an HTTP error response with status `s ≥ 400` leads to a
retry if and only if `s ∈ {401, 429, 500}` (not `{401, 429}`) and
`maxRetry > 0` and `attempt < maxRetry`; otherwise the call fails
terminally with the normalized error and an unchanged attempt counter, so
`maxRetry = 0` still disables retrying. -/
theorem C1_retry_iff (w : World α) (st st1 : ClientState)
    (o : reqOptions α) (e : ErrObj) (s : Nat)
    (hfetch : fetch w st o = (.error e, st1))
    (he : e.status = some s) (h400 : 400 ≤ s) :
    (o.attempt < (reqHandler w st o).2.2 ↔
      (s ∈ [401, 429, 500] ∧ 0 < o.maxRetry ∧ o.attempt < o.maxRetry)) ∧
    (¬ (s ∈ [401, 429, 500] ∧ 0 < o.maxRetry ∧ o.attempt < o.maxRetry) →
      reqHandler w st o =
        (.error (.http { status := some s }), st1, o.attempt)) := by
  have hsa : isSuperAgentError e = true := by
    simp [isSuperAgentError, he]
  by_cases hcond : 0 < o.maxRetry ∧ o.attempt < o.maxRetry ∧
      statusRetryable e.status = true
  · have hclaim : s ∈ [401, 429, 500] ∧ 0 < o.maxRetry ∧
        o.attempt < o.maxRetry := by
      refine ⟨?_, hcond.1, hcond.2.1⟩
      have h2 := hcond.2.2
      rw [he] at h2
      simpa [statusRetryable, retryOn] using h2
    have hlt : o.attempt < (reqHandler w st o).2.2 := by
      rw [reqHandler, hfetch]
      simp only [hsa, if_true, dif_pos hcond]
      exact lt_of_lt_of_le (Nat.lt_succ_self o.attempt)
        (reqHandler_attempt_le w _ { o with attempt := o.attempt + 1 })
    exact ⟨iff_of_true hlt hclaim, fun hn => absurd hclaim hn⟩
  · have heq : reqHandler w st o =
        (.error (.http { status := some s }), st1, o.attempt) := by
      rw [reqHandler, hfetch]
      simp only [hsa, if_true, dif_neg hcond]
      simp [simplifySuperagentError, he, show s ≠ 0 by omega]
    have hnclaim : ¬ (s ∈ [401, 429, 500] ∧ 0 < o.maxRetry ∧
        o.attempt < o.maxRetry) := by
      intro hcl
      refine hcond ⟨hcl.2.1, hcl.2.2, ?_⟩
      rw [he]
      refine statusRetryable_of_mem s ?_
      simpa [retryOn] using hcl.1
    have hnlt : ¬ o.attempt < (reqHandler w st o).2.2 := by
      rw [heq]
      simp
    exact ⟨iff_of_false hnlt hnclaim, fun _ => heq⟩

/-- C1 witness: a 429 response with budget left (maxRetry 2, attempt 0)
satisfies both sides of the retry iff. -/
theorem C1_retry_iff_witness :
    ((0 : Nat) < (reqHandler w429 stTok
        (mkOptions Method.GET 2 { token := some ovTok })).2.2 ↔
      ((429 : Nat) ∈ [401, 429, 500] ∧ (0 : Nat) < 2 ∧ (0 : Nat) < 2)) ∧
    (¬ ((429 : Nat) ∈ [401, 429, 500] ∧ (0 : Nat) < 2 ∧ (0 : Nat) < 2) →
      reqHandler w429 stTok (mkOptions Method.GET 2 { token := some ovTok }) =
        (.error (.http { status := some 429 }),
         { stTok with resourceLog := stTok.resourceLog ++ ["override"] },
         0)) :=
  C1_retry_iff w429 stTok
    { stTok with resourceLog := stTok.resourceLog ++ ["override"] }
    (mkOptions Method.GET 2 { token := some ovTok })
    (errOf 429) 429
    (by simp [fetch, mkOptions, doResource, w429, ovTok])
    rfl (by norm_num)

/-- C10: a request carrying a per-call token override whose every attempt
is answered 401, with at least one retry in budget, clears the shared
cached token (invalidation on 401 is unconditional even though the cache
was not used), re-sends the same unchanged override token on every
attempt (the resource log gains `maxRetry + 1` copies of it), performs no
grant exchange, and ends in terminal failure with the attempt counter
exhausted at `maxRetry`. -/
theorem C10_override_401_exhaustion (w : World α) (st : ClientState)
    (mr : Nat) (o : inputOptions α) (t : userToken) (e : ErrObj)
    (ht : o.token = some t) (he : e.status = some 401)
    (hw : ∀ n, w.resource n = .error e) (hmr : 1 ≤ o.maxRetry.getD mr) :
    get w st mr o =
      (.error (.http { status := some 401 }),
       { access_token := none
         grantCount := st.grantCount
         resourceLog := st.resourceLog ++
           List.replicate (o.maxRetry.getD mr + 1) t.access_token },
       o.maxRetry.getD mr) := by
  have h := reqHandler_always_err w e 401 t he (by decide) (by decide) hw st
    (mkOptions Method.GET mr o) (by simpa [mkOptions] using ht)
  rw [get, h]
  have h0 : 0 < o.maxRetry.getD mr := hmr
  simp [mkOptions, h0]

/-- C10 witness: override rejected 401 on all three attempts with
maxRetry 2 — terminal failure at attempt 2, cache cleared, override
re-sent three times, zero grant exchanges. -/
theorem C10_override_401_exhaustion_witness :
    get w401 stTok 2 { token := some ovTok } =
      (.error (.http { status := some 401 }),
       { access_token := none
         grantCount := 0
         resourceLog := List.replicate 3 "override" },
       2) :=
  C10_override_401_exhaustion w401 stTok 2 { token := some ovTok } ovTok
    (errOf 401) rfl rfl (fun n => rfl) (by decide)

/-- C3 counterexample: the claim says a token-endpoint failure is never
retried by the request pipeline and propagates directly; but with the
grant exchange always answering 500 and `maxRetry = 5`, the pipeline
performs six grant exchanges before failing (and, as the claim does say,
zero resource calls). -/
theorem C3_counterexample :
    (get wGrant500 st0 5 {}).2.1.grantCount = 6 ∧
    (get wGrant500 st0 5 {}).2.1.resourceLog = [] ∧
    (get wGrant500 st0 5 {}).1 = .error (.http { status := some 500 }) := by
  have h := reqHandler_grant_always_err wGrant500 (errOf 500) 500 rfl
    (by decide) (by decide) (fun n => rfl) st0 (mkOptions Method.GET 5 {})
    rfl rfl
  rw [get, h]
  refine ⟨by simp [st0, mkOptions], by simp [st0], rfl⟩

/-- C3 (amended): when acquiring a token is needed (no override, empty
cache) and the grant exchange fails, no resource request is attempted on
that attempt; if the failure's status is outside `{401, 429, 500}` or the
retry budget is exhausted (in particular `maxRetry = 0`), the error
propagates to the caller (normalized when superagent-shaped, raw
otherwise) with exactly one grant exchange performed and the resource log
untouched; but with a status in `{401, 429, 500}` and budget remaining,
the request pipeline retries and performs a second grant exchange. -/
theorem C3_token_failure (w : World α) (st : ClientState)
    (o : reqOptions α) (e : ErrObj) (ht : o.token = none)
    (hc : st.access_token = none)
    (hg : w.grant st.grantCount = .error e) :
    (¬ (0 < o.maxRetry ∧ o.attempt < o.maxRetry ∧
        statusRetryable e.status = true) →
      reqHandler w st o =
        ((if isSuperAgentError e then
            .error (.http (simplifySuperagentError e))
          else .error (.raw e)),
         { st with grantCount := st.grantCount + 1 }, o.attempt)) ∧
    ((0 < o.maxRetry ∧ o.attempt < o.maxRetry ∧
        statusRetryable e.status = true) →
      st.grantCount + 2 ≤ (reqHandler w st o).2.1.grantCount) := by
  have hfetch : fetch w st o =
      (.error e, { st with grantCount := st.grantCount + 1 }) := by
    simp [fetch, ht, hc, generateToken, hg]
  constructor
  · intro hn
    rw [reqHandler, hfetch]
    by_cases hsa : isSuperAgentError e = true
    · simp only [hsa, if_true, dif_neg hn]
    · simp only [Bool.not_eq_true] at hsa
      simp only [hsa, Bool.false_eq_true, if_false]
  · intro hcond
    have hsa : isSuperAgentError e = true := by
      rcases he2 : e.status with _ | s
      · rw [he2] at hcond
        simp [statusRetryable] at hcond
      · simp [isSuperAgentError, he2]
    rw [reqHandler, hfetch]
    simp only [hsa, if_true, dif_pos hcond]
    refine le_trans ?_ (reqHandler_grant_first w _
      { o with attempt := o.attempt + 1 } (by simpa using ht) ?_)
    · split <;> dsimp only <;> omega
    · split
      · rfl
      · exact hc

/-- C3 witness: grant exchange answering 400 (not retryable) with
maxRetry 5 — the caller gets the normalized 400 error after exactly one
grant exchange and zero resource calls; the retryable side holds
vacuously. -/
theorem C3_token_failure_witness :
    (¬ ((0 : Nat) < 5 ∧ (0 : Nat) < 5 ∧
        statusRetryable (errOf 400).status = true) →
      reqHandler wGrant400 st0 (mkOptions Method.GET 5 {}) =
        ((if isSuperAgentError (errOf 400) then
            .error (.http (simplifySuperagentError (errOf 400)))
          else .error (.raw (errOf 400))),
         { st0 with grantCount := 1 }, 0)) ∧
    (((0 : Nat) < 5 ∧ (0 : Nat) < 5 ∧
        statusRetryable (errOf 400).status = true) →
      (1 : Nat) + 1 ≤
        (reqHandler wGrant400 st0
          (mkOptions Method.GET 5 {})).2.1.grantCount) :=
  C3_token_failure wGrant400 st0 (mkOptions Method.GET 5 {}) (errOf 400)
    rfl rfl rfl

/-- C6: a 401 with retry budget remaining invalidates the cached token
before the next attempt, and the retried attempt re-runs authentication:
with no override and an empty cache, the first attempt performs a grant
exchange (token `t0`), is answered 401, the cache is cleared, and the
retry performs a second, fresh grant exchange (token `t1`) and succeeds —
final attempt 1, exactly two grant exchanges in total, the two resource
calls carrying bearer `t0` then `t1`. -/
theorem C6_invalidate_refetch (w : World α) (st : ClientState) (mr : Nat)
    (o : inputOptions α) (e : ErrObj) (t0 t1 : String) (res : Response α)
    (ht : o.token = none) (hc : st.access_token = none)
    (hg0 : w.grant st.grantCount = .ok t0)
    (hr0 : w.resource st.resourceLog.length = .error e)
    (he : e.status = some 401)
    (hmr : 1 ≤ o.maxRetry.getD mr)
    (hg1 : w.grant (st.grantCount + 1) = .ok t1)
    (hr1 : w.resource (st.resourceLog.length + 1) = .ok res) :
    get w st mr o =
      (.ok res,
       { access_token := some t1
         grantCount := st.grantCount + 2
         resourceLog := st.resourceLog ++ [t0, t1] },
       1) := by
  have hfetch1 : fetch w st (mkOptions Method.GET mr o) =
      (.error e,
       { access_token := some t0
         grantCount := st.grantCount + 1
         resourceLog := st.resourceLog ++ [t0] }) := by
    simp [fetch, mkOptions, ht, hc, generateToken, hg0, doResource, hr0]
  have hsa : isSuperAgentError e = true := by
    simp [isSuperAgentError, he]
  have hcond : 0 < (mkOptions Method.GET mr o : reqOptions α).maxRetry ∧
      (mkOptions Method.GET mr o : reqOptions α).attempt <
        (mkOptions Method.GET mr o : reqOptions α).maxRetry ∧
      statusRetryable (some 401) = true := by
    exact ⟨by simpa [mkOptions] using hmr,
      by simpa [mkOptions] using hmr, by decide⟩
  rw [get, reqHandler, hfetch1]
  simp only [hsa, if_true, he, reduceIte, dif_pos hcond]
  have hfetch2 : fetch w
      { access_token := none
        grantCount := st.grantCount + 1
        resourceLog := st.resourceLog ++ [t0] }
      { mkOptions Method.GET mr o with
        attempt := (mkOptions Method.GET mr o : reqOptions α).attempt + 1 } =
      (.ok res,
       { access_token := some t1
         grantCount := st.grantCount + 2
         resourceLog := (st.resourceLog ++ [t0]) ++ [t1] }) := by
    simp [fetch, mkOptions, ht, generateToken, hg1, doResource,
      List.length_append, hr1]
  rw [reqHandler, hfetch2]
  dsimp only [mkOptions]
  refine Prod.ext rfl (Prod.ext ?_ ?_)
  · dsimp only
    rw [ClientState.mk.injEq]
    exact ⟨rfl, rfl, by simp⟩
  · rfl

/-- C6 witness: cache empty, grant exchanges minting t0 then t1, first
resource call 401 then success — attempt 1, two grants, bearers t0, t1. -/
theorem C6_invalidate_refetch_witness :
    get w401Once st0 5 {} =
      (.ok okResp,
       { access_token := some "t1"
         grantCount := 2
         resourceLog := ["t0", "t1"] },
       1) :=
  C6_invalidate_refetch w401Once st0 5 {} (errOf 401) "t0" "t1" okResp
    rfl rfl rfl rfl rfl (by decide) rfl rfl

/-- C5: when `getAll`'s page-1 request succeeds and the `link` header is
absent, or no comma-separated segment yields a `last` relation under the
`<URL>; rel="name"` pattern, or the `last` relation's URL yields no usable
integer `page` query parameter, `getAll` resolves with page 1's body
unchanged (array or object) and no error, having issued only the single
page-1 request. -/
theorem C5_single_page (w : World α) (st : ClientState) (mr : Nat)
    (o : inputOptions α) (res1 : Response α) (st1 : ClientState) (a1 : Nat)
    (h1 : reqHandler w st (initPageOptions mr o) = (.ok res1, st1, a1))
    (hc : alookup "link" res1.header = none ∨
      (∀ h, alookup "link" res1.header = some h →
        alookup "last" (parseLinks h) = none) ∨
      (∀ h u, alookup "link" res1.header = some h →
        alookup "last" (parseLinks h) = some u → lastPageNum u = none)) :
    getAll w st mr o = (.ok res1.body, st1, [initPageReq mr o]) := by
  obtain ⟨m, hm⟩ := getLastPage_isError (alookup "link" res1.header) hc
  rw [getAll, h1]
  dsimp only
  rw [hm]

/-- C5 witness: a response with no `link` header at all — `getAll` returns
the raw object body, one request issued. -/
theorem C5_single_page_witness :
    getAll wNoLink stTok 5 {} =
      (.ok (Body.obj 7),
       { access_token := some "cached", grantCount := 0,
         resourceLog := ["cached"] },
       [initPageReq 5 ({} : inputOptions Nat)]) :=
  C5_single_page wNoLink stTok 5 {}
    { status := 200, header := [], body := .obj 7 }
    { access_token := some "cached", grantCount := 0,
      resourceLog := ["cached"] }
    0
    (by
      rw [reqHandler]
      simp [initPageOptions, mkOptions, fetch, doResource, wNoLink, stTok])
    (Or.inl rfl)

/-- C4 counterexample: the `last` relation URL `?page=-3` parses to the
last-page number -3 (JS `parseInt` accepts a sign; only 0 and NaN are
rejected), yet `getAll` issues one page request, not -3 — so "exactly N
page requests" fails without the restriction N ≥ 1. -/
theorem C4_counterexample :
    getLastPage (some hdrNeg) = .ok (-3) ∧
    ((getAll wNeg stTok 5 {}).2.2).length = 1 ∧
    (1 : Int) ≠ -3 := by
  have h1 : reqHandler wNeg stTok (initPageOptions 5 {}) =
      (.ok { status := 200, header := [("link", hdrNeg)],
             body := .arr [1] },
       { access_token := some "cached", grantCount := 0,
         resourceLog := ["cached"] }, 0) := by
    rw [reqHandler]
    simp [initPageOptions, mkOptions, fetch, doResource, wNeg, stTok]
  refine ⟨by rfl, ?_, by decide⟩
  rw [getAll, h1]
  rfl

/-- C4 (amended): when page 1 succeeds and its `link` header yields a
last-page number N ≥ 1, `getAll` issues exactly N page requests — page 1
first, then pages 2..N in ascending order, each an independent request
with its own attempt counter starting at 0 and `per_page=perPage&page=i`
appended to its URL; when every page succeeds with an array body the
result concatenates the bodies in ascending page order (page 1's items
first); if any page request fails terminally the whole call fails with no
partial result. -/
theorem C4_pagination (w : World α) (st : ClientState) (mr : Nat)
    (o : inputOptions α) (res1 : Response α) (st1 : ClientState) (a1 : Nat)
    (N : Int)
    (h1 : reqHandler w st (initPageOptions mr o) = (.ok res1, st1, a1))
    (hlp : getLastPage (alookup "link" res1.header) = .ok N)
    (hN : 1 ≤ N) :
    ((getAll w st mr o).2.2).length = N.toNat ∧
    (getAll w st mr o).2.2 = initPageReq mr o :: (pageRange N).map (fun i =>
      { urlParams := [("per_page", toString (effPerPage o)),
                      ("page", toString i)]
        query := o.query
        attempt := 0
        maxRetry := o.maxRetry.getD mr }) ∧
    (∀ (xs : List α) (itemss : List (List α)),
      res1.body = .arr xs →
      promiseAll (fanOut w st1 mr (effPerPage o) o (pageRange N)).1 =
        .ok (itemss.map Body.arr) →
      (getAll w st mr o).1 = .ok (.arr (xs ++ itemss.flatten))) ∧
    (∀ e2 : ThrownErr,
      .error e2 ∈ (fanOut w st1 mr (effPerPage o) o (pageRange N)).1 →
      ∃ e3, (getAll w st mr o).1 = .error e3) := by
  rcases hf : fanOut w st1 mr (effPerPage o) o (pageRange N) with ⟨rs, st2, reqs⟩
  have hreqs : reqs = (pageRange N).map (fun i =>
      { urlParams := [("per_page", toString (effPerPage o)),
                      ("page", toString i)]
        query := o.query
        attempt := 0
        maxRetry := o.maxRetry.getD mr }) := by
    have h2 := fanOut_reqs w mr (effPerPage o) o (pageRange N) st1
    rw [hf] at h2
    exact h2
  have hR : getAll w st mr o =
      (match promiseAll rs with
       | .error e => (.error e, st2, initPageReq mr o :: reqs)
       | .ok bodies =>
         match concatBodies res1.body bodies with
         | .error e => (.error e, st2, initPageReq mr o :: reqs)
         | .ok b => (.ok b, st2, initPageReq mr o :: reqs)) := by
    rw [getAll, h1]
    dsimp only
    rw [hlp]
    dsimp only
    rw [hf]
  have hiss : (getAll w st mr o).2.2 = initPageReq mr o :: reqs := by
    rw [hR]
    cases hpa : promiseAll rs with
    | error e => rfl
    | ok bodies =>
      cases hcb : concatBodies res1.body bodies with
      | error e => simp [hcb]
      | ok b => simp [hcb]
  refine ⟨?_, ?_, ?_, ?_⟩
  · rw [hiss, hreqs]
    simp only [List.length_cons, List.length_map, pageRange_length]
    omega
  · rw [hiss, hreqs]
  · intro xs itemss hxs hok
    dsimp only at hok
    rw [hR, hok]
    dsimp only
    rw [hxs, concatBodies_arr]
  · intro e2 hmem
    dsimp only at hmem
    obtain ⟨e3, he3⟩ := promiseAll_error_of_mem rs e2 hmem
    refine ⟨e3, ?_⟩
    rw [hR, he3]

/-- C4 witness: a `last` relation pointing at page 4 — exactly 4 issued
requests in ascending page order, concatenation and all-or-nothing facts
instantiated. -/
theorem C4_pagination_witness :
    ((getAll wPages stTok 5 {}).2.2).length = (4 : Int).toNat ∧
    (getAll wPages stTok 5 {}).2.2 =
      initPageReq 5 ({} : inputOptions Nat) :: (pageRange 4).map (fun i =>
        { urlParams :=
            [("per_page", toString (effPerPage ({} : inputOptions Nat))),
             ("page", toString i)]
          query := ({} : inputOptions Nat).query
          attempt := 0
          maxRetry := ({} : inputOptions Nat).maxRetry.getD 5 }) ∧
    (∀ (xs : List Nat) (itemss : List (List Nat)),
      (Body.arr [1, 2] : Body Nat) = .arr xs →
      promiseAll (fanOut wPages
          { access_token := some "cached", grantCount := 0,
            resourceLog := ["cached"] } 5
          (effPerPage ({} : inputOptions Nat)) {} (pageRange 4)).1 =
        .ok (itemss.map Body.arr) →
      (getAll wPages stTok 5 {}).1 = .ok (.arr (xs ++ itemss.flatten))) ∧
    (∀ e2 : ThrownErr,
      .error e2 ∈ (fanOut wPages
          { access_token := some "cached", grantCount := 0,
            resourceLog := ["cached"] } 5
          (effPerPage ({} : inputOptions Nat)) {} (pageRange 4)).1 →
      ∃ e3, (getAll wPages stTok 5 {}).1 = .error e3) :=
  C4_pagination wPages stTok 5 {}
    { status := 200, header := [("link", hdr4)], body := .arr [1, 2] }
    { access_token := some "cached", grantCount := 0,
      resourceLog := ["cached"] }
    0 4
    (by
      rw [reqHandler]
      simp [initPageOptions, mkOptions, fetch, doResource, wPages, stTok])
    (by rfl) (by decide)

/-- C7: at the failing input `perPage = 50`, the page-1 request is issued
with the hard-coded query `page=1&per_page=100` — not `per_page = 50` —
while pages 2..4 carry `per_page=50` in their URLs; the page-1 request
thus contradicts the documented meaning of the `perPage` option. -/
theorem C7_page1_hardcoded_perpage :
    ((getAll wPages stTok 5 { perPage := some 50 }).2.2).map
        (fun q => (q.urlParams, q.query)) =
      [([], [("page", "1"), ("per_page", "100")]),
       ([("per_page", "50"), ("page", "2")], []),
       ([("per_page", "50"), ("page", "3")], []),
       ([("per_page", "50"), ("page", "4")], [])] := by
  have h1 : reqHandler wPages stTok
      (initPageOptions 5 { perPage := some 50 }) =
      (.ok { status := 200, header := [("link", hdr4)], body := .arr [1, 2] },
       { access_token := some "cached", grantCount := 0,
         resourceLog := ["cached"] }, 0) := by
    rw [reqHandler]
    simp [initPageOptions, mkOptions, fetch, doResource, wPages, stTok]
  rcases hf : fanOut wPages
      { access_token := some "cached", grantCount := 0,
        resourceLog := ["cached"] } 5
      (effPerPage ({ perPage := some 50 } : inputOptions Nat))
      { perPage := some 50 } (pageRange 4) with ⟨rs, st2, reqs⟩
  have hreqs := fanOut_reqs wPages 5
    (effPerPage ({ perPage := some 50 } : inputOptions Nat))
    { perPage := some 50 } (pageRange 4)
    { access_token := some "cached", grantCount := 0,
      resourceLog := ["cached"] }
  rw [hf] at hreqs
  dsimp only at hreqs
  have hiss : (getAll wPages stTok 5 { perPage := some 50 }).2.2 =
      initPageReq 5 ({ perPage := some 50 } : inputOptions Nat) :: reqs := by
    rw [getAll, h1]
    dsimp only
    rw [show getLastPage (alookup "link" [("link", hdr4)]) = .ok 4 from rfl]
    dsimp only
    rw [hf]
    cases hpa : promiseAll rs with
    | error e => rfl
    | ok bodies =>
      cases hcb : concatBodies (Body.arr [1, 2]) bodies with
      | error e => simp [hcb]
      | ok b => simp [hcb]
  rw [hiss, hreqs]
  rfl

end Claims

end Intra
